import Mathlib

/-!
Verification of the fragment registration hand-off in
`src/implementors/core_foundation/base/trait.TCFType.js`.

The source file is a generated documentation cross-reference fragment.  It
builds one contribution batch (an object mapping library names to ordered
lists of rendered implementor strings) and then performs the hand-off

  `if (window.register_implementors) { window.register_implementors(implementors); }
   else { window.pending_implementors = implementors; }`

The viewer runtime's `install` operation (the definition of
`window.register_implementors`) is not part of the source tree; where it is
needed it is modelled from the specification.
-/

/-- A record: an opaque rendered-markup payload value.  The registry treats
records as uninterpreted blobs; in the source they are the HTML snippet
strings stored in the `implementors` arrays. -/
abbrev Record := String

/-- A contribution batch: a mapping from subject key (library name) to an
ordered sequence of records, kept as an association list in insertion
order.  In the source this is the object literal `implementors` built by
successive assignments such as `implementors["core_foundation"] = []`. -/
abbrev Batch := List (String × List Record)

/-- The process-wide registry state: the two `window` slots touched by the
hand-off.  `register_implementors` is the installed consumer callback
(`window.register_implementors`), held abstractly as a value of an
arbitrary type `γ`; `pending_implementors` is the single pending slot
(`window.pending_implementors`), empty or holding one batch. -/
structure RegState (γ : Type) where
  pending_implementors : Option Batch
  register_implementors : Option γ

variable {γ : Type} {ε : Type}

/-- The fragment hand-off step, translated from the source IIFE:
if `window.register_implementors` is set (a function value is truthy, so
the test is `isSome`) the batch is passed to it in the same step;
otherwise `window.pending_implementors = implementors` overwrites the
pending slot with the batch.  The result pairs the updated state with the
list of consumer invocations (batches passed to the callback) performed
by the call. -/
def submit (st : RegState γ) (b : Batch) : RegState γ × List Batch :=
  if st.register_implementors.isSome then (st, [b])
  else ({ st with pending_implementors := some b }, [])

/-- Modelled from the spec: the viewer runtime's `install(consumer)`
operation — the definition of `window.register_implementors` is not under
the source tree.  Per the spec, `install` delivers whatever the pending
state holds, in submission order, clears it, and stores the consumer as
the active delivery target for future submissions. -/
def install (st : RegState γ) (c : γ) : RegState γ × List Batch :=
  ({ pending_implementors := none, register_implementors := some c },
   st.pending_implementors.toList)

/-- An operation arriving at the registry: a fragment load (`submit`) or a
consumer installation (`install`). -/
inductive Op (γ : Type) where
  | submit (b : Batch)
  | install (c : γ)

/-- One registry transition. -/
def step (st : RegState γ) : Op γ → RegState γ × List Batch
  | .submit b => submit st b
  | .install c => install st c

/-- Run a sequence of operations from a state, concatenating the consumer
invocations each operation produces, in execution order.  The execution
model is the single-threaded, serialized one of the source environment:
each call runs to completion before the next. -/
def run (st : RegState γ) : List (Op γ) → RegState γ × List Batch
  | [] => (st, [])
  | op :: ops =>
    let p := step st op
    let q := run p.1 ops
    (q.1, p.2 ++ q.2)

/-- The initial registry state: nothing pending, no consumer installed. -/
def initState (γ : Type) : RegState γ :=
  { pending_implementors := none, register_implementors := none }

/-- The batches submitted by a sequence of operations, in order. -/
def submittedBatches : List (Op γ) → List Batch
  | [] => []
  | .submit b :: ops => b :: submittedBatches ops
  | .install _ :: ops => submittedBatches ops

/-- The record sequence contributed under a subject key in a batch. -/
def recordsFor (k : String) (b : Batch) : Option (List Record) :=
  List.lookup k b

/-- Claim C2: a batch submitted while a consumer callback is installed is
passed to the callback synchronously within the same step, exactly once,
and it is exactly the submitted batch object; the registry state is left
untouched, so no buffering is performed. -/
theorem submit_installed_delivers_once (st : RegState γ) (b : Batch)
    (h : st.register_implementors.isSome = true) :
    submit st b = (st, [b]) := by
  simp [submit, h]

theorem submit_installed_delivers_once_witness :
    submit { pending_implementors := none, register_implementors := some () }
        [("libX", [])]
      = ({ pending_implementors := none, register_implementors := some () },
         [[("libX", [])]]) :=
  submit_installed_delivers_once _ _ rfl

/-- Claim C8: a submission while no consumer is installed overwrites the
pending slot with exactly the submitted batch, regardless of any batch it
previously held, and performs no delivery; at most one pending batch is
ever retained. -/
theorem submit_pending_overwrites (st : RegState γ) (b : Batch)
    (h : st.register_implementors = none) :
    (submit st b).1.pending_implementors = some b ∧ (submit st b).2 = [] := by
  simp [submit, h]

theorem submit_pending_overwrites_witness :
    (submit { pending_implementors := some [("old", ["o1", "o2"])],
              register_implementors := (none : Option Unit) }
        [("new", ["n1"])]).1.pending_implementors = some [("new", ["n1"])]
    ∧ (submit { pending_implementors := some [("old", ["o1", "o2"])],
                register_implementors := (none : Option Unit) }
        [("new", ["n1"])]).2 = [] :=
  submit_pending_overwrites _ _ rfl

/-- Claim C9: the submit operation never modifies the installed-consumer
slot — whatever callback (or absence of one) was installed before a
submission is still installed, unchanged, after it. -/
theorem submit_preserves_consumer (st : RegState γ) (b : Batch) :
    (submit st b).1.register_implementors = st.register_implementors := by
  by_cases h : st.register_implementors.isSome <;> simp [submit, h]

/-- The content of the pending slot after overwriting it with each batch of
a list in turn (last write wins), starting from a given content. -/
def lastWrite (p : Option Batch) (bs : List Batch) : Option Batch :=
  bs.foldl (fun _ b => some b) p

theorem submit_eq_waiting (st : RegState γ) (b : Batch)
    (h : st.register_implementors.isSome = false) :
    submit st b = ({ st with pending_implementors := some b }, []) := by
  simp [submit, h]

theorem run_append (l₁ l₂ : List (Op γ)) (st : RegState γ) :
    run st (l₁ ++ l₂)
      = ((run (run st l₁).1 l₂).1, (run st l₁).2 ++ (run (run st l₁).1 l₂).2) := by
  induction l₁ generalizing st with
  | nil => simp [run]
  | cons op ops ih => simp [run, ih, List.append_assoc]

theorem run_submits_installed (cs : List Batch) (st : RegState γ)
    (h : st.register_implementors.isSome = true) :
    run st (cs.map Op.submit) = (st, cs) := by
  induction cs with
  | nil => simp [run]
  | cons c cs ih => simp [run, step, submit, h, ih]

theorem run_submits_waiting (bs : List Batch) (st : RegState γ)
    (h : st.register_implementors.isSome = false) :
    run st (bs.map Op.submit)
      = ({ st with pending_implementors := lastWrite st.pending_implementors bs }, []) := by
  induction bs generalizing st with
  | nil => simp [run, lastWrite]
  | cons b bs ih =>
    simp only [List.map_cons, run, step]
    rw [submit_eq_waiting st b h]
    rw [ih { st with pending_implementors := some b } h]
    simp [lastWrite]

/-- Claim C1 (amended): for batches B1 then B2 submitted, in that order,
before any consumer is installed, a subsequent install invokes the
consumer exactly once, with B2 alone: the pending state retains at most
one batch, so submitting B2 replaced B1, which is dropped. -/
theorem c1_amended (b₁ b₂ : Batch) (c : γ) :
    (run (initState γ) [Op.submit b₁, Op.submit b₂, Op.install c]).2 = [b₂] := by
  simp [run, step, submit, install, initState]

/-- Claim C1 fails as stated: with B1 = lib1 ↦ [r1, r2] and
B2 = lib2 ↦ [r3] submitted before installation, the consumer is invoked
with B2 only; B1 is never delivered (delivered zero times, not once) and
is dropped from the pending state. -/
theorem c1_counterexample :
    (run (initState Unit)
        [Op.submit [("lib1", ["r1", "r2"])], Op.submit [("lib2", ["r3"])],
         Op.install ()]).2 = [[("lib2", ["r3"])]]
    ∧ ((run (initState Unit)
        [Op.submit [("lib1", ["r1", "r2"])], Op.submit [("lib2", ["r3"])],
         Op.install ()]).2).count [("lib1", ["r1", "r2"])] = 0 := by
  constructor <;> rfl

/-- How many copies of a batch the pending slot holds (zero or one). -/
def pendCount (b : Batch) (st : RegState γ) : Nat :=
  if st.pending_implementors = some b then 1 else 0

theorem count_toList_pending (b : Batch) (st : RegState γ) :
    (st.pending_implementors.toList).count b = pendCount b st := by
  rcases hp : st.pending_implementors with _ | p
  · simp [pendCount, hp]
  · rcases eq_or_ne p b with h | h
    · simp [pendCount, hp, h, List.count_singleton']
    · have hb : List.count b [p] = 0 := List.count_eq_zero.mpr (by simp [Ne.symm h])
      simp [pendCount, hp, h, hb]

theorem deliveries_count_le (ops : List (Op γ)) (st : RegState γ) (b : Batch) :
    ((run st ops).2).count b + pendCount b (run st ops).1
      ≤ (submittedBatches ops).count b + pendCount b st := by
  induction ops generalizing st with
  | nil => simp [run, submittedBatches]
  | cons op ops ih =>
    rcases op with b' | c
    · rcases hreg : st.register_implementors.isSome with _ | _
      · have hstep : step st (Op.submit b')
            = ({ st with pending_implementors := some b' }, []) := by
          simp [step, submit, hreg]
        have hpend : pendCount b { st with pending_implementors := some b' }
            = if b' = b then 1 else 0 := by
          simp [pendCount]
        have hrec := ih { st with pending_implementors := some b' }
        simp only [run, hstep, submittedBatches, List.nil_append, List.count_cons,
          List.count_nil, beq_iff_eq]
        omega
      · have hstep : step st (Op.submit b') = (st, [b']) := by
          simp [step, submit, hreg]
        have hrec := ih st
        simp only [run, hstep, submittedBatches, List.count_append,
          List.count_singleton', List.count_cons, List.count_nil, beq_iff_eq]
        omega
    · have hstep : step st (Op.install c)
          = ({ pending_implementors := none, register_implementors := some c },
             st.pending_implementors.toList) := by
        simp [step, install]
      have hrec := ih { pending_implementors := none, register_implementors := some c }
      have hzero : pendCount b
          ({ pending_implementors := none, register_implementors := some c } : RegState γ)
          = 0 := by
        simp [pendCount]
      have htl := count_toList_pending b st
      simp only [run, hstep, submittedBatches, List.count_append]
      omega

/-- Claim C3 fails as stated: with libA ↦ [x] submitted, then libB ↦ []
submitted, then a consumer installed, the first batch is never delivered
(zero times, not at least once) even though a consumer is installed. -/
theorem c3_counterexample :
    ((run (initState Unit)
        [Op.submit [("libA", ["x"])], Op.submit [("libB", [])],
         Op.install ()]).2).count [("libA", ["x"])] = 0
    ∧ (run (initState Unit)
        [Op.submit [("libA", ["x"])], Op.submit [("libB", [])],
         Op.install ()]).1.register_implementors.isSome = true := by
  constructor <;> rfl

/-- Claim C3 (amended): every submitted batch is delivered at most as many
times as it is submitted (in particular, a batch submitted once is never
delivered twice); and in a run of pre-install submissions followed by an
install and post-install submissions, what is delivered is exactly the
last pre-install batch (if any), then each post-install batch, once each,
in order — batches overwritten in the single pending slot before install
are dropped, not delivered. -/
theorem c3_amended_delivery :
    (∀ (ops : List (Op γ)) (b : Batch),
        ((run (initState γ) ops).2).count b ≤ (submittedBatches ops).count b)
    ∧ ∀ (bs cs : List Batch) (c : γ),
        (run (initState γ) (bs.map Op.submit ++ Op.install c :: cs.map Op.submit)).2
          = (lastWrite none bs).toList ++ cs := by
  constructor
  · intro ops b
    have h := deliveries_count_le ops (initState γ) b
    have h0 : pendCount b (initState γ) = 0 := by simp [pendCount, initState]
    omega
  · intro bs cs c
    have h₁ := run_submits_waiting bs (initState γ) rfl
    have h₂ := run_submits_installed cs
      ({ pending_implementors := none, register_implementors := some c } : RegState γ) rfl
    rw [run_append, h₁]
    simp [run, step, install, initState, h₂]

theorem mem_deliveries_of_run (ops : List (Op γ)) (st : RegState γ) (d : Batch)
    (h : d ∈ (run st ops).2) :
    d ∈ submittedBatches ops ∨ st.pending_implementors = some d := by
  induction ops generalizing st with
  | nil => simp [run] at h
  | cons op ops ih =>
    rcases op with b' | c
    · rcases hreg : st.register_implementors.isSome with _ | _
      · have hstep : step st (Op.submit b')
            = ({ st with pending_implementors := some b' }, []) := by
          simp [step, submit, hreg]
        simp only [run, hstep, List.nil_append] at h
        rcases ih _ h with hs | hp
        · exact Or.inl (List.mem_cons_of_mem _ hs)
        · simp only [Option.some_inj] at hp
          exact Or.inl (hp ▸ List.mem_cons_self b' (submittedBatches ops))
      · have hstep : step st (Op.submit b') = (st, [b']) := by
          simp [step, submit, hreg]
        simp only [run, hstep, List.singleton_append, List.mem_cons] at h
        rcases h with rfl | h
        · exact Or.inl (List.mem_cons_self d (submittedBatches ops))
        · rcases ih _ h with hs | hp
          · exact Or.inl (List.mem_cons_of_mem _ hs)
          · exact Or.inr hp
    · have hstep : step st (Op.install c)
          = ({ pending_implementors := none, register_implementors := some c },
             st.pending_implementors.toList) := by
        simp [step, install]
      simp only [run, hstep, List.mem_append] at h
      rcases h with h | h
      · right
        rcases hp : st.pending_implementors with _ | p
        · simp [hp] at h
        · simp only [hp, Option.toList_some, List.mem_singleton] at h
          simp [h]
      · rcases ih _ h with hs | hp
        · exact Or.inl hs
        · simp at hp

/-- Claim C4: every batch delivered in a run from the initial state is one
of the submitted batches, passed through as-is, so the record sequence
under each subject key of a delivered batch is identical — same values,
same order — to the sequence originally submitted under that key; the
registry never reorders, alters, or interprets the records. -/
theorem delivered_records_preserved (ops : List (Op γ)) (d : Batch)
    (h : d ∈ (run (initState γ) ops).2) :
    ∃ b, b ∈ submittedBatches ops ∧ ∀ k, recordsFor k d = recordsFor k b := by
  rcases mem_deliveries_of_run ops (initState γ) d h with hs | hp
  · exact ⟨d, hs, fun k => rfl⟩
  · simp [initState] at hp

theorem delivered_records_preserved_witness :
    [("lib", ["r"])] ∈ (run (initState Unit)
        [Op.install (), Op.submit [("lib", ["r"])]]).2
    ∧ ∃ b, b ∈ submittedBatches
          ([Op.install (), Op.submit [("lib", ["r"])]] : List (Op Unit))
        ∧ ∀ k, recordsFor k [("lib", ["r"])] = recordsFor k b :=
  ⟨by decide, delivered_records_preserved _ _ (by decide)⟩

theorem run_preserves_inv (ops : List (Op γ)) (st : RegState γ)
    (h : st.register_implementors.isSome = true → st.pending_implementors = none) :
    ((run st ops).1.register_implementors.isSome = true →
        (run st ops).1.pending_implementors = none)
    ∧ (st.register_implementors.isSome = true →
        (run st ops).1.register_implementors.isSome = true) := by
  induction ops generalizing st with
  | nil => exact ⟨h, fun hs => hs⟩
  | cons op ops ih =>
    rcases op with b' | c
    · rcases hreg : st.register_implementors.isSome with _ | _
      · have hstep : step st (Op.submit b')
            = ({ st with pending_implementors := some b' }, []) := by
          simp [step, submit, hreg]
        have hrec := ih { st with pending_implementors := some b' }
          (fun hs => absurd hs (by simp [hreg]))
        refine ⟨?_, ?_⟩
        · simpa only [run, hstep] using hrec.1
        · intro hs
          exact absurd hs (by simp [hreg])
      · have hstep : step st (Op.submit b') = (st, [b']) := by
          simp [step, submit, hreg]
        have hrec := ih st h
        exact ⟨by simpa only [run, hstep] using hrec.1,
               fun _ => by simpa only [run, hstep] using hrec.2 hreg⟩
    · have hstep : step st (Op.install c)
          = ({ pending_implementors := none, register_implementors := some c },
             st.pending_implementors.toList) := by
        simp [step, install]
      have hrec := ih { pending_implementors := none, register_implementors := some c }
        (fun _ => rfl)
      exact ⟨by simpa only [run, hstep] using hrec.1,
             fun _ => by simpa only [run, hstep] using hrec.2 rfl⟩

/-- Claim C5: in every state reachable from the initial one, the registry
never holds a pending batch and an installed consumer at the same time;
and the transition is one-directional — from any reachable state with a
consumer installed, every continuation keeps a consumer installed and
keeps the pending slot empty, so no further buffering ever occurs. -/
theorem registry_exclusive_one_directional :
    (∀ ops : List (Op γ),
        ¬((run (initState γ) ops).1.pending_implementors.isSome = true
          ∧ (run (initState γ) ops).1.register_implementors.isSome = true))
    ∧ ∀ (ops more : List (Op γ)),
        (run (initState γ) ops).1.register_implementors.isSome = true →
        (run (run (initState γ) ops).1 more).1.register_implementors.isSome = true
        ∧ (run (run (initState γ) ops).1 more).1.pending_implementors = none := by
  have base : ∀ ops : List (Op γ),
      (run (initState γ) ops).1.register_implementors.isSome = true →
      (run (initState γ) ops).1.pending_implementors = none := by
    intro ops
    exact (run_preserves_inv ops (initState γ) (fun _ => rfl)).1
  refine ⟨?_, ?_⟩
  · intro ops ⟨hp, hr⟩
    rw [base ops hr] at hp
    cases hp
  · intro ops more hr
    have hrec := run_preserves_inv more (run (initState γ) ops).1 (base ops)
    exact ⟨hrec.2 hr, hrec.1 (hrec.2 hr)⟩

theorem registry_exclusive_one_directional_witness :
    (run (run (initState Unit) [Op.install ()]).1
        [Op.submit [("k", ["v"])]]).1.register_implementors.isSome = true
    ∧ (run (run (initState Unit) [Op.install ()]).1
        [Op.submit [("k", ["v"])]]).1.pending_implementors = none :=
  registry_exclusive_one_directional.2 [Op.install ()] [Op.submit [("k", ["v"])]] rfl

/-- Registry state with the consumer's behaviour made explicit, for
reasoning about failure during delivery: the installed callback is a
function that either succeeds or throws an exception of type `ε`. -/
structure RegStateE (ε : Type) where
  pending_implementors : Option Batch
  register_implementors : Option (Batch → Except ε Unit)

/-- The fragment hand-off with exception propagation, from the same source
IIFE: the call `window.register_implementors(implementors)` is not wrapped
in any try/catch, so a throw from the consumer propagates to the caller
and the branch writes no registry state; the other branch only stores the
batch in `window.pending_implementors` and cannot fail. -/
def submitE (st : RegStateE ε) (b : Batch) : Except ε (RegStateE ε) :=
  match st.register_implementors with
  | some f => (f b).map fun _ => st
  | none => Except.ok { st with pending_implementors := some b }

/-- Claim C6: the submit operation accepts every input batch — malformed
or not, its record contents are never inspected or validated — and never
fails of itself: with no consumer installed it always succeeds, storing
the batch as-is, and any failure of a submission is exactly a failure of
the installed consumer callback, never of the registry. -/
theorem submit_never_fails (st : RegStateE ε) (b : Batch) :
    (st.register_implementors = none →
      submitE st b = Except.ok { st with pending_implementors := some b })
    ∧ ∀ e, submitE st b = Except.error e →
        ∃ f, st.register_implementors = some f ∧ f b = Except.error e := by
  constructor
  · intro h
    simp [submitE, h]
  · intro e he
    rcases hreg : st.register_implementors with _ | f
    · simp [submitE, hreg] at he
    · refine ⟨f, rfl, ?_⟩
      simp only [submitE, hreg] at he
      rcases hf : f b with e' | u
      · rw [hf] at he
        simpa [Except.map] using he
      · rw [hf] at he
        simp [Except.map] at he

theorem submit_never_fails_witness :
    submitE { pending_implementors := none,
              register_implementors := (none : Option (Batch → Except String Unit)) }
        [("bad key", ["<not even markup"])]
      = Except.ok { pending_implementors := some [("bad key", ["<not even markup"])],
                    register_implementors := none } :=
  (submit_never_fails _ _).1 rfl

/-- Claim C7: when the installed consumer callback fails during delivery,
the failure propagates as-is to the caller of the submit operation — it is
not caught, masked or retried inside the registry — and the registry makes
no state change around the call: the submission's outcome is exactly the
consumer's outcome, with the state unchanged on success. -/
theorem consumer_failure_propagates (st : RegStateE ε)
    (f : Batch → Except ε Unit) (b : Batch)
    (h : st.register_implementors = some f) :
    submitE st b = (f b).map (fun _ => st)
    ∧ ∀ e, f b = Except.error e → submitE st b = Except.error e := by
  refine ⟨by simp [submitE, h], ?_⟩
  intro e he
  have h1 : submitE st b = Except.map (fun _ => st) (f b) := by simp [submitE, h]
  rw [h1, he]
  rfl

theorem consumer_failure_propagates_witness :
    submitE { pending_implementors := none,
              register_implementors := some (fun _ => Except.error "boom") }
        [("lib", ["r"])]
      = Except.error "boom" :=
  (consumer_failure_propagates _ (fun _ => Except.error "boom") _ rfl).2 "boom" rfl

/-- First record of the core_graphics sequence in the source batch. -/
def cgColorSpaceRecord : Record :=
  "impl <a class=\x27trait\x27 href=\x27core_foundation/base/trait.TCFType.html\x27 title=\x27core_foundation::base::TCFType\x27>TCFType</a>&lt;<a class=\x27type\x27 href=\x27core_graphics/color_space/type.CGColorSpaceRef.html\x27 title=\x27core_graphics::color_space::CGColorSpaceRef\x27>CGColorSpaceRef</a>&gt; for <a class=\x27struct\x27 href=\x27core_graphics/color_space/struct.CGColorSpace.html\x27 title=\x27core_graphics::color_space::CGColorSpace\x27>CGColorSpace</a>"

/-- Second record of the core_graphics sequence in the source batch. -/
def cgContextRecord : Record :=
  "impl <a class=\x27trait\x27 href=\x27core_foundation/base/trait.TCFType.html\x27 title=\x27core_foundation::base::TCFType\x27>TCFType</a>&lt;<a class=\x27type\x27 href=\x27core_graphics/context/type.CGContextRef.html\x27 title=\x27core_graphics::context::CGContextRef\x27>CGContextRef</a>&gt; for <a class=\x27struct\x27 href=\x27core_graphics/context/struct.CGContext.html\x27 title=\x27core_graphics::context::CGContext\x27>CGContext</a>"

/-- Third record of the core_graphics sequence in the source batch. -/
def cgDataProviderRecord : Record :=
  "impl <a class=\x27trait\x27 href=\x27core_foundation/base/trait.TCFType.html\x27 title=\x27core_foundation::base::TCFType\x27>TCFType</a>&lt;<a class=\x27type\x27 href=\x27core_graphics/data_provider/type.CGDataProviderRef.html\x27 title=\x27core_graphics::data_provider::CGDataProviderRef\x27>CGDataProviderRef</a>&gt; for <a class=\x27struct\x27 href=\x27core_graphics/data_provider/struct.CGDataProvider.html\x27 title=\x27core_graphics::data_provider::CGDataProvider\x27>CGDataProvider</a>"

/-- Fourth record of the core_graphics sequence in the source batch. -/
def cgFontRecord : Record :=
  "impl <a class=\x27trait\x27 href=\x27core_foundation/base/trait.TCFType.html\x27 title=\x27core_foundation::base::TCFType\x27>TCFType</a>&lt;<a class=\x27type\x27 href=\x27core_graphics/font/type.CGFontRef.html\x27 title=\x27core_graphics::font::CGFontRef\x27>CGFontRef</a>&gt; for <a class=\x27struct\x27 href=\x27core_graphics/font/struct.CGFont.html\x27 title=\x27core_graphics::font::CGFont\x27>CGFont</a>"

/-- First record of the cocoa sequence in the source batch. -/
def cocoaColorSpaceRecord : Record :=
  "impl <a class=\x27trait\x27 href=\x27core_foundation/base/trait.TCFType.html\x27 title=\x27core_foundation::base::TCFType\x27>TCFType</a>&lt;<a class=\x27primitive\x27 href=\x27https://doc.rust-lang.org/nightly/std/primitive.pointer.html\x27>*const </a><a class=\x27struct\x27 href=\x27core_graphics/color_space/struct.__CGColorSpace.html\x27 title=\x27core_graphics::color_space::__CGColorSpace\x27>__CGColorSpace</a>&gt; for <a class=\x27struct\x27 href=\x27core_graphics/color_space/struct.CGColorSpace.html\x27 title=\x27core_graphics::color_space::CGColorSpace\x27>CGColorSpace</a>"

/-- Second record of the cocoa sequence in the source batch. -/
def cocoaContextRecord : Record :=
  "impl <a class=\x27trait\x27 href=\x27core_foundation/base/trait.TCFType.html\x27 title=\x27core_foundation::base::TCFType\x27>TCFType</a>&lt;<a class=\x27primitive\x27 href=\x27https://doc.rust-lang.org/nightly/std/primitive.pointer.html\x27>*const </a><a class=\x27struct\x27 href=\x27core_graphics/context/struct.__CGContext.html\x27 title=\x27core_graphics::context::__CGContext\x27>__CGContext</a>&gt; for <a class=\x27struct\x27 href=\x27core_graphics/context/struct.CGContext.html\x27 title=\x27core_graphics::context::CGContext\x27>CGContext</a>"

/-- Third record of the cocoa sequence in the source batch. -/
def cocoaDataProviderRecord : Record :=
  "impl <a class=\x27trait\x27 href=\x27core_foundation/base/trait.TCFType.html\x27 title=\x27core_foundation::base::TCFType\x27>TCFType</a>&lt;<a class=\x27primitive\x27 href=\x27https://doc.rust-lang.org/nightly/std/primitive.pointer.html\x27>*const </a><a class=\x27struct\x27 href=\x27core_graphics/data_provider/struct.__CGDataProvider.html\x27 title=\x27core_graphics::data_provider::__CGDataProvider\x27>__CGDataProvider</a>&gt; for <a class=\x27struct\x27 href=\x27core_graphics/data_provider/struct.CGDataProvider.html\x27 title=\x27core_graphics::data_provider::CGDataProvider\x27>CGDataProvider</a>"

/-- Fourth record of the cocoa sequence in the source batch. -/
def cocoaFontRecord : Record :=
  "impl <a class=\x27trait\x27 href=\x27core_foundation/base/trait.TCFType.html\x27 title=\x27core_foundation::base::TCFType\x27>TCFType</a>&lt;<a class=\x27primitive\x27 href=\x27https://doc.rust-lang.org/nightly/std/primitive.pointer.html\x27>*const </a><a class=\x27struct\x27 href=\x27core_graphics/font/struct.__CGFont.html\x27 title=\x27core_graphics::font::__CGFont\x27>__CGFont</a>&gt; for <a class=\x27struct\x27 href=\x27core_graphics/font/struct.CGFont.html\x27 title=\x27core_graphics::font::CGFont\x27>CGFont</a>"

/-- The contribution batch built by this fragment, from the source: the
empty object extended by the three assignments to the keys
core_foundation (empty sequence), core_graphics (four records) and
cocoa (four records), in that insertion order. -/
def implementors : Batch :=
  [("core_foundation", []),
   ("core_graphics",
    [cgColorSpaceRecord, cgContextRecord, cgDataProviderRecord, cgFontRecord]),
   ("cocoa",
    [cocoaColorSpaceRecord, cocoaContextRecord, cocoaDataProviderRecord,
     cocoaFontRecord])]

/-- Claim C10: the batch this fragment submits maps exactly the three
subject keys core_foundation (to an empty record sequence), core_graphics
(to four records) and cocoa (to four records); and a key bound to an empty
sequence is a valid contribution accepted at the public interface — the
hand-off of this very batch in the initial state succeeds, storing it
unchanged, delivering nothing. -/
theorem fragment_batch_shape :
    implementors.map Prod.fst = ["core_foundation", "core_graphics", "cocoa"]
    ∧ recordsFor "core_foundation" implementors = some []
    ∧ (recordsFor "core_graphics" implementors).map List.length = some 4
    ∧ (recordsFor "cocoa" implementors).map List.length = some 4
    ∧ submit (initState Unit) implementors
        = ({ pending_implementors := some implementors,
             register_implementors := none }, []) :=
  ⟨rfl, rfl, rfl, rfl, rfl⟩
